import Mathlib

/-!
Shallow embedding of the matching subsystem of the coffee-meetings platform
(backend/matching: services.py, models.py, serializers.py, views.py),
together with theorems checking the specification's claims about it.

Employees are represented by their integer ids; an employee's attribute bag
is a function from attribute key to an optional value, mirroring the
`Dict[int, Dict[str, str]]` built by `_get_employee_attributes`.
-/

/-- A matching criterion row as read by the services layer:
`criteria.values('attribute_key', 'rule')`.  The rule is kept as the raw
string, exactly as the code compares it (`'same'` / `'not_same'`). -/
structure Criterion where
  attribute_key : String
  rule : String
deriving DecidableEq, Repr

/-- Attribute lookup for one campaign: employee id and key to optional value,
mirroring `attrs.get(key)` on the per-employee dict. -/
abbrev AttrMap := Nat → String → Option String

/-- `MatchingAlgorithmService._pair_matches_criteria_optimized`: walk the
compiled criteria; a criterion whose key is missing on either side is
skipped; rule `same` rejects on differing values, rule `not_same` rejects on
equal values; any other rule string falls through both branches. -/
def pairMatchesCriteria (attrs : AttrMap) (e1 e2 : Nat) : List Criterion → Bool
  | [] => true
  | c :: rest =>
    match attrs e1 c.attribute_key, attrs e2 c.attribute_key with
    | some v1, some v2 =>
      if c.rule = "same" then
        if v1 = v2 then pairMatchesCriteria attrs e1 e2 rest else false
      else if c.rule = "not_same" then
        if v1 = v2 then false else pairMatchesCriteria attrs e1 e2 rest
      else pairMatchesCriteria attrs e1 e2 rest
    | _, _ => pairMatchesCriteria attrs e1 e2 rest

/-- Direction normalization `(min(e1.id, e2.id), max(e1.id, e2.id))` used both
when building the existing-pairs set and when probing it. -/
def pairKey (a b : Nat) : Nat × Nat := (min a b, max a b)

/-- `MatchingAlgorithmService._get_existing_pairs`: normalize every stored
`(employee1_id, employee2_id)` row and collect the keys into a set (here a
deduplicated list: only membership and size are ever used). -/
def getExistingPairs (rows : List (Nat × Nat)) : List (Nat × Nat) :=
  (rows.map fun r => pairKey r.1 r.2).dedup

/-- Edge filter of `_generate_with_criteria`: keep `e2` as a partner for `e1`
when the normalized key is not an existing pair and the criteria admit the
pair. -/
def edgeKeep (attrs : AttrMap) (criteria : List Criterion)
    (existing : List (Nat × Nat)) (e1 e2 : Nat) : Bool :=
  !(decide (pairKey e1 e2 ∈ existing)) && pairMatchesCriteria attrs e1 e2 criteria

/-- Candidate-edge construction of `_generate_with_criteria`
(lines 114-123): the nested `i < j` loops over the employee list, skipping
existing pairs and pairs that fail the criteria. -/
def buildEdgesWithCriteria (attrs : AttrMap) (criteria : List Criterion)
    (existing : List (Nat × Nat)) : List Nat → List (Nat × Nat)
  | [] => []
  | e1 :: rest =>
    (rest.filter (edgeKeep attrs criteria existing e1)).map (fun e2 => (e1, e2)) ++
      buildEdgesWithCriteria attrs criteria existing rest

/-- Candidate-edge construction of `_generate_random_pairs` (lines 141-148):
the same nested loops, excluding only existing pairs. -/
def buildEdgesRandom (existing : List (Nat × Nat)) : List Nat → List (Nat × Nat)
  | [] => []
  | e1 :: rest =>
    (rest.filter (fun e2 => !(decide (pairKey e1 e2 ∈ existing)))).map (fun e2 => (e1, e2)) ++
      buildEdgesRandom existing rest

/-- Specification-side enumeration of the unordered pairs of a list, one
`(earlier, later)` tuple per combination — the reference against which the
builders are compared ("enumerate combinations, not permutations"). -/
def specUnorderedPairs : List Nat → List (Nat × Nat)
  | [] => []
  | e :: rest => rest.map (fun e2 => (e, e2)) ++ specUnorderedPairs rest

/-- Greedy fallback of `_maximum_matching_from_edges` (lines 183-189): scan
the edges in build order, accept an edge when neither endpoint was used yet,
marking both endpoints used. -/
def greedyMatchingAux (used : List Nat) : List (Nat × Nat) → List (Nat × Nat)
  | [] => []
  | (u, v) :: rest =>
    if u ∈ used ∨ v ∈ used then greedyMatchingAux used rest
    else (u, v) :: greedyMatchingAux (u :: v :: used) rest

/-- The greedy fallback started with an empty used set. -/
def greedyMatching (edges : List (Nat × Nat)) : List (Nat × Nat) :=
  greedyMatchingAux [] edges

/-- All ids occurring in a pair list, with multiplicity (each pair
contributes both of its components). -/
def pairIds (pairs : List (Nat × Nat)) : List Nat :=
  pairs.flatMap fun p => [p.1, p.2]

/-- Modelled from the spec: the contract of networkx's
`max_weight_matching(G, maxcardinality=True)` on the graph with the built
edges — code outside this repository.  Its result is a set of edges of the
graph (each returned in some orientation) that are pairwise vertex-disjoint,
i.e. a matching. -/
def IsNxMatching (edges M : List (Nat × Nat)) : Prop :=
  (∀ p ∈ M, p ∈ edges ∨ (p.2, p.1) ∈ edges) ∧ (pairIds M).Nodup

/-- Modelled from the spec: with `maxcardinality=True` the returned matching
has maximum cardinality among all matchings of the graph. -/
def IsMaxNxMatching (edges M : List (Nat × Nat)) : Prop :=
  IsNxMatching edges M ∧ ∀ M', IsNxMatching edges M' → M'.length ≤ M.length

instance (edges M : List (Nat × Nat)) : Decidable (IsNxMatching edges M) := by
  unfold IsNxMatching; infer_instance

/-- `MatchingAlgorithmService._maximum_matching_from_edges`: use the
networkx maximum-cardinality matching when the library is available
(`nxResult` carries its output), otherwise fall back to the greedy scan.
The employee list is used by the code only to resolve ids to names for the
response dictionaries. -/
def maximumMatchingFromEdges (nxResult : Option (List (Nat × Nat)))
    (employees : List Nat) (edges : List (Nat × Nat)) : List (Nat × Nat) :=
  match nxResult, employees with
  | some m, _ => m
  | none, _ => greedyMatching edges

/-- Response dictionary of `MatchingAlgorithmService.generate_pairs`
(pairs reduced to id tuples; the early "not enough employees" exit leaves
the fields it does not set at their defaults). -/
structure GenerateResult where
  success : Bool
  error : Option String := none
  pairs : List (Nat × Nat) := []
  total_possible : Nat := 0
  total_generated : Nat := 0
  criteria_used : List Criterion := []
  existing_pairs_count : Nat := 0
  message : String := ""
deriving DecidableEq, Repr

/-- Python truthiness of the optional `limit` argument (`if limit and ...`):
`None` and `0` are falsy. -/
def limitTruthy : Option Nat → Bool
  | none => false
  | some l => !(decide (l = 0))

/-- `MatchingAlgorithmService._generate_status_message`. -/
def generateStatusMessage (generated : Nat) (limit : Option Nat) : String :=
  if generated = 0 then
    "No valid pairs could be generated with the current criteria"
  else if limitTruthy limit && decide (generated < limit.getD 0) then
    "Only " ++ toString generated ++ " pairs created, less than requested limit of " ++
      toString (limit.getD 0)
  else
    toString generated ++ " final pairs created successfully"

/-- `MatchingAlgorithmService._calculate_total_possible_pairs`:
`C(n,2)` minus the size of the normalized existing-pairs set. -/
def calculateTotalPossiblePairs (employees : List Nat)
    (existing : List (Nat × Nat)) : Nat :=
  employees.length * (employees.length - 1) / 2 - existing.length

/-- `MatchingAlgorithmService.generate_pairs`: load criteria and employees,
fail below two employees, build the candidate edges (criteria path when any
criterion exists, otherwise the random path), solve, truncate to the limit,
and assemble the response. -/
def generatePairs (nxResult : Option (List (Nat × Nat))) (employees : List Nat)
    (attrs : AttrMap) (criteria : List Criterion) (existingRows : List (Nat × Nat))
    (limit : Option Nat) : GenerateResult :=
  if employees.length < 2 then
    { success := false
      error := some "Not enough employees to generate pairs (minimum 2 required)" }
  else
    let existing := getExistingPairs existingRows
    let validPairs :=
      if criteria.isEmpty then
        maximumMatchingFromEdges nxResult employees (buildEdgesRandom existing employees)
      else
        maximumMatchingFromEdges nxResult employees
          (buildEdgesWithCriteria attrs criteria existing employees)
    let limited :=
      if limitTruthy limit && decide (validPairs.length > limit.getD 0) then
        validPairs.take (limit.getD 0)
      else validPairs
    { success := true
      pairs := limited
      total_possible := calculateTotalPossiblePairs employees existing
      total_generated := limited.length
      criteria_used := criteria
      existing_pairs_count := existing.length
      message := generateStatusMessage limited.length limit }

/-- A stored `EmployeePair` row, reduced to the columns that the uniqueness
constraints and duplicate checks read. -/
structure PairRow where
  campaign : Nat
  e1 : Nat
  e2 : Nat
deriving DecidableEq, Repr

/-- `EmployeePair.pair_exists`: a pair already exists in either direction
for the campaign. -/
def pairExists (rows : List PairRow) (c a b : Nat) : Bool :=
  rows.any fun r =>
    r.campaign == c && ((r.e1 == a && r.e2 == b) || (r.e1 == b && r.e2 == a))

/-- The database constraint `unique_pair_forward`
(`UniqueConstraint(fields=['campaign', 'employee1', 'employee2'])`): two
rows conflict when they agree column-wise on the three columns. -/
def uniqueForwardConflict (r s : PairRow) : Bool :=
  r.campaign == s.campaign && r.e1 == s.e1 && r.e2 == s.e2

/-- The database constraint `unique_pair_reverse`
(`UniqueConstraint(fields=['campaign', 'employee2', 'employee1'])`): listing
the same three columns in a different order imposes the same column-wise
agreement condition (a SQL unique constraint is over a column set). -/
def uniqueReverseConflict (r s : PairRow) : Bool :=
  r.campaign == s.campaign && r.e2 == s.e2 && r.e1 == s.e1

/-- Saving one `EmployeePair` row (`pair_obj.save()`): the insert fails with
an integrity error exactly when some stored row conflicts under one of the
two unique constraints; otherwise the row is appended. -/
def savePairRow (rows : List PairRow) (p : PairRow) : Option (List PairRow) :=
  if rows.any (fun r => uniqueForwardConflict r p || uniqueReverseConflict r p) then none
  else some (rows ++ [p])

/-- A stored `CampaignMatchingCriteria` row, reduced to the columns the
lock logic reads. -/
structure CriterionRow where
  attribute_key : String
  rule : String
  is_locked : Bool
deriving DecidableEq, Repr

/-- Per-item rejection reasons produced by `ConfirmPairsView.post`. -/
inductive ConfirmError where
  | employeeNotFound (a b : Nat)
  | pairAlreadyExists (a b : Nat)
  | createFailed (a b : Nat)
deriving DecidableEq, Repr

/-- Mutable state threaded through the confirmation batch loop: the pair
store, the campaign's criteria rows, and the accumulated saved pairs and
per-item errors. -/
structure ConfirmState where
  rows : List PairRow
  criteria : List CriterionRow
  saved : List (Nat × Nat)
  errors : List ConfirmError
deriving DecidableEq, Repr

/-- First phase of one batch in `ConfirmPairsView.post` (lines 240-259):
resolve both employee ids and run `pair_exists` against the pair store as it
stood when the batch started; rejected items produce per-item errors, the
rest are collected for creation. -/
def collectToCreate (c : Nat) (employees : List Nat) (rowsAtCheck : List PairRow) :
    List (Nat × Nat) → List (Nat × Nat) × List ConfirmError
  | [] => ([], [])
  | pd :: rest =>
    let (keep, errs) := collectToCreate c employees rowsAtCheck rest
    if !(decide (pd.1 ∈ employees)) || !(decide (pd.2 ∈ employees)) then
      (keep, .employeeNotFound pd.1 pd.2 :: errs)
    else if pairExists rowsAtCheck c pd.1 pd.2 then
      (keep, .pairAlreadyExists pd.1 pd.2 :: errs)
    else
      (pd :: keep, errs)

/-- Second phase of one batch (lines 261-274): save each collected row in
turn; an insert rejected by the unique constraints surfaces as a per-item
error, a successful insert is appended to the saved list. -/
def saveCollected (c : Nat) :
    List PairRow → List (Nat × Nat) → List PairRow × List (Nat × Nat) × List ConfirmError
  | rows, [] => (rows, [], [])
  | rows, pd :: rest =>
    match savePairRow rows ⟨c, pd.1, pd.2⟩ with
    | some rows1 =>
      let (rows2, saved, errs) := saveCollected c rows1 rest
      (rows2, pd :: saved, errs)
    | none =>
      let (rows2, saved, errs) := saveCollected c rows rest
      (rows2, saved, .createFailed pd.1 pd.2 :: errs)

/-- `criteria.update(is_locked=True)`: lock every criteria row of the
campaign. -/
def lockCriteria (crit : List CriterionRow) : List CriterionRow :=
  crit.map fun cr => { cr with is_locked := true }

/-- One batch of the confirmation loop: collect, save, then lock the
criteria if any pair has been saved so far (lines 276-278). -/
def processOneBatch (c : Nat) (employees : List Nat) (st : ConfirmState)
    (batch : List (Nat × Nat)) : ConfirmState :=
  let (toCreate, errs1) := collectToCreate c employees st.rows batch
  let (rows1, saved1, errs2) := saveCollected c st.rows toCreate
  let savedAll := st.saved ++ saved1
  let crit1 := if savedAll.isEmpty then st.criteria else lockCriteria st.criteria
  { rows := rows1, criteria := crit1, saved := savedAll,
    errors := st.errors ++ errs1 ++ errs2 }

/-- The batch loop of `ConfirmPairsView.post`
(`for batch_start in range(0, len(pairs_data), BATCH_SIZE)` with
`BATCH_SIZE = 500`), written with a fuel argument so that it is structural;
`processBatches` supplies enough fuel for every input. -/
def processBatchesFuel (c : Nat) (employees : List Nat) :
    Nat → ConfirmState → List (Nat × Nat) → ConfirmState
  | _, st, [] => st
  | 0, st, _ => st
  | fuel + 1, st, reqs =>
    processBatchesFuel c employees fuel
      (processOneBatch c employees st (reqs.take 500)) (reqs.drop 500)

/-- The confirmation batch loop over the whole request. -/
def processBatches (c : Nat) (employees : List Nat) (st : ConfirmState)
    (reqs : List (Nat × Nat)) : ConfirmState :=
  processBatchesFuel c employees reqs.length st reqs

/-- `PairConfirmationRequestSerializer`: the pairs list is non-empty and no
item pairs an employee with itself; violating either fails validation of
the whole request. -/
def validatePairsRequest (reqs : List (Nat × Nat)) : Bool :=
  !reqs.isEmpty && reqs.all fun p => !(p.1 == p.2)

/-- The response body assembled by `ConfirmPairsView.post`, together with
the HTTP status it is sent with. -/
structure ConfirmResponse where
  status : Nat
  success : Bool
  message : String
  total_saved : Nat
  pairs_saved : List (Nat × Nat)
  errors : List ConfirmError
deriving DecidableEq, Repr

/-- Result of one confirmation request: the response and the new database
state (pair rows and criteria rows). -/
structure ConfirmOutcome where
  response : ConfirmResponse
  rows : List PairRow
  criteria : List CriterionRow
deriving DecidableEq, Repr

/-- `ConfirmPairsView.post`: validate the request (serializer failure is a
whole-request 400 and touches nothing), run the batch loop, then answer 201
with `success: true` and the message built from the saved count — per-item
failures are only reported through the errors list. -/
def confirmPairs (c : Nat) (employees : List Nat) (rows : List PairRow)
    (crit : List CriterionRow) (reqs : List (Nat × Nat)) : ConfirmOutcome :=
  if !(validatePairsRequest reqs) then
    { response := { status := 400, success := false, message := "Invalid request data",
                    total_saved := 0, pairs_saved := [], errors := [] }
      rows := rows, criteria := crit }
  else
    let st := processBatches c employees { rows := rows, criteria := crit, saved := [], errors := [] } reqs
    { response := { status := 201, success := true,
                    message := toString st.saved.length ++ " pairs confirmed and saved successfully",
                    total_saved := st.saved.length, pairs_saved := st.saved,
                    errors := st.errors }
      rows := st.rows, criteria := st.criteria }

/-- Outcome of `SaveMatchingCriteriaView.post`. -/
inductive SaveCriteriaResult where
  | invalidRequest
  | locked
  | attributeMissing (key : String)
  | saved (rows : List CriterionRow)
deriving DecidableEq, Repr

/-- `CriteriaSaveRequestSerializer`: at least one criterion, each with a
rule in {same, not_same}. -/
def validateCriteriaRequest (cs : List (String × String)) : Bool :=
  !cs.isEmpty && cs.all fun cr => cr.2 == "same" || cr.2 == "not_same"

/-- Creation loop of `SaveMatchingCriteriaView.post`: each new criterion
must name an attribute present in the campaign, and is created unlocked. -/
def buildNewCriteria (attrExists : String → Bool) :
    List (String × String) → Except String (List CriterionRow)
  | [] => .ok []
  | cr :: rest =>
    if attrExists cr.1 then
      match buildNewCriteria attrExists rest with
      | .ok rows => .ok ({ attribute_key := cr.1, rule := cr.2, is_locked := false } :: rows)
      | .error k => .error k
    else .error cr.1

/-- `SaveMatchingCriteriaView.post` (lines 65-134): validate the request,
refuse when any existing criteria row of the campaign is locked, otherwise
replace the campaign's criteria with the new, unlocked rows. -/
def saveCriteria (crit : List CriterionRow) (attrExists : String → Bool)
    (cs : List (String × String)) : SaveCriteriaResult :=
  if !(validateCriteriaRequest cs) then .invalidRequest
  else if crit.any (fun cr => cr.is_locked) then .locked
  else
    match buildNewCriteria attrExists cs with
    | .ok rows => .saved rows
    | .error k => .attributeMissing k

/-- Per-criterion check factored out of the loop body of
`_pair_matches_criteria_optimized`. -/
def criterionOk (attrs : AttrMap) (e1 e2 : Nat) (c : Criterion) : Bool :=
  match attrs e1 c.attribute_key, attrs e2 c.attribute_key with
  | some v1, some v2 =>
    if c.rule = "same" then v1 == v2
    else if c.rule = "not_same" then !(v1 == v2)
    else true
  | _, _ => true

theorem pairMatchesCriteria_cons (attrs : AttrMap) (e1 e2 : Nat) (c : Criterion)
    (rest : List Criterion) :
    pairMatchesCriteria attrs e1 e2 (c :: rest) =
      (criterionOk attrs e1 e2 c && pairMatchesCriteria attrs e1 e2 rest) := by
  rw [pairMatchesCriteria, criterionOk]
  cases h1 : attrs e1 c.attribute_key <;> cases h2 : attrs e2 c.attribute_key <;>
    simp only [Bool.true_and]
  rename_i v1 v2
  by_cases hr : c.rule = "same"
  · by_cases hv : v1 = v2 <;> simp [hr, hv]
  · by_cases hr2 : c.rule = "not_same"
    · by_cases hv : v1 = v2 <;> simp [hr, hr2, hv]
    · simp [hr, hr2]

theorem pairMatchesCriteria_eq_all (attrs : AttrMap) (e1 e2 : Nat)
    (criteria : List Criterion) :
    pairMatchesCriteria attrs e1 e2 criteria =
      criteria.all (criterionOk attrs e1 e2) := by
  induction criteria with
  | nil => rfl
  | cons c rest ih => rw [pairMatchesCriteria_cons, ih, List.all_cons]

theorem criterionOk_iff (attrs : AttrMap) (e1 e2 : Nat) (c : Criterion) :
    criterionOk attrs e1 e2 c = true ↔
      ∀ v1 v2, attrs e1 c.attribute_key = some v1 →
        attrs e2 c.attribute_key = some v2 →
        (c.rule = "same" → v1 = v2) ∧ (c.rule = "not_same" → v1 ≠ v2) := by
  rw [criterionOk]
  cases h1 : attrs e1 c.attribute_key <;> cases h2 : attrs e2 c.attribute_key <;>
    simp only [Option.some.injEq, reduceCtorEq]
  case none.none => simp
  case none.some => simp
  case some.none => simp
  case some.some v1 v2 =>
    by_cases hr : c.rule = "same"
    · have : c.rule ≠ "not_same" := by rw [hr]; decide
      simp [hr, this]
    · by_cases hr2 : c.rule = "not_same"
      · simp [hr, hr2]
      · simp [hr, hr2]

/-- C1: the eligibility check accepts a pair of distinct employees exactly
when every criterion whose key both employees carry is satisfied (`same`
forces equal values, `not_same` forces differing values); a criterion with a
missing value on either side is skipped — in particular a single `same`
criterion on a key the first employee lacks never rejects the pair. -/
theorem pair_eligibility_iff (attrs : AttrMap) (e1 e2 : Nat) (hne : e1 ≠ e2)
    (criteria : List Criterion) :
    (pairMatchesCriteria attrs e1 e2 criteria = true ↔
      ∀ c ∈ criteria, ∀ v1 v2, attrs e1 c.attribute_key = some v1 →
        attrs e2 c.attribute_key = some v2 →
        (c.rule = "same" → v1 = v2) ∧ (c.rule = "not_same" → v1 ≠ v2)) ∧
    (∀ K, attrs e1 K = none →
      pairMatchesCriteria attrs e1 e2 [{ attribute_key := K, rule := "same" }] = true) := by
  refine ⟨?_, ?_⟩
  · rw [pairMatchesCriteria_eq_all, List.all_eq_true]
    constructor
    · intro h c hc
      exact (criterionOk_iff attrs e1 e2 c).mp (h c hc)
    · intro h c hc
      exact (criterionOk_iff attrs e1 e2 c).mpr (h c hc)
  · intro K hK
    cases h2 : attrs e2 K <;> simp [pairMatchesCriteria, hK, h2]

/-- Concrete attribute table used by witnesses: employee 1 has
department "sales", employee 2 has department "eng", employee 3 has no
attributes at all. -/
def attrsA : AttrMap := fun e k =>
  if e = 1 && k = "department" then some "sales"
  else if e = 2 && k = "department" then some "eng"
  else none

theorem pair_eligibility_iff_witness :
    (3 : Nat) ≠ 2 ∧
    ((pairMatchesCriteria attrsA 3 2 [{ attribute_key := "department", rule := "same" }] = true ↔
      ∀ c ∈ [({ attribute_key := "department", rule := "same" } : Criterion)],
        ∀ v1 v2, attrsA 3 c.attribute_key = some v1 →
          attrsA 2 c.attribute_key = some v2 →
          (c.rule = "same" → v1 = v2) ∧ (c.rule = "not_same" → v1 ≠ v2)) ∧
    (∀ K, attrsA 3 K = none →
      pairMatchesCriteria attrsA 3 2 [{ attribute_key := K, rule := "same" }] = true)) :=
  ⟨by decide, pair_eligibility_iff attrsA 3 2 (by decide)
    [{ attribute_key := "department", rule := "same" }]⟩

theorem filter_map_comm (f : Nat → Nat × Nat) (p : Nat × Nat → Bool) (l : List Nat) :
    (l.map f).filter p = (l.filter fun x => p (f x)).map f := by
  induction l with
  | nil => rfl
  | cons a l ih =>
    by_cases h : p (f a) <;> simp [List.filter_cons, h, ih]

theorem buildEdgesWithCriteria_eq_filter (attrs : AttrMap) (criteria : List Criterion)
    (existing : List (Nat × Nat)) (emps : List Nat) :
    buildEdgesWithCriteria attrs criteria existing emps =
      (specUnorderedPairs emps).filter
        (fun p => !(decide (pairKey p.1 p.2 ∈ existing)) &&
          pairMatchesCriteria attrs p.1 p.2 criteria) := by
  induction emps with
  | nil => rfl
  | cons e rest ih =>
    rw [buildEdgesWithCriteria, specUnorderedPairs, List.filter_append, ih,
      filter_map_comm]
    rfl

theorem buildEdgesRandom_eq_filter (existing : List (Nat × Nat)) (emps : List Nat) :
    buildEdgesRandom existing emps =
      (specUnorderedPairs emps).filter
        (fun p => !(decide (pairKey p.1 p.2 ∈ existing))) := by
  induction emps with
  | nil => rfl
  | cons e rest ih =>
    rw [buildEdgesRandom, specUnorderedPairs, List.filter_append, ih,
      filter_map_comm]

theorem buildEdges_empty_criteria (attrs : AttrMap) (existing : List (Nat × Nat))
    (emps : List Nat) :
    buildEdgesWithCriteria attrs [] existing emps = buildEdgesRandom existing emps := by
  rw [buildEdgesWithCriteria_eq_filter, buildEdgesRandom_eq_filter]
  apply List.filter_congr
  intro p _
  simp [pairMatchesCriteria]

theorem pairKey_comm (a b : Nat) : pairKey a b = pairKey b a := by
  simp [pairKey, Nat.min_comm, Nat.max_comm]

theorem pairKey_eq_iff {a b c d : Nat} :
    pairKey a b = pairKey c d ↔ (a = c ∧ b = d) ∨ (a = d ∧ b = c) := by
  simp only [pairKey, Prod.mk.injEq]
  omega

theorem mem_specUnorderedPairs {p : Nat × Nat} {l : List Nat}
    (h : p ∈ specUnorderedPairs l) : p.1 ∈ l ∧ p.2 ∈ l := by
  induction l with
  | nil => simp [specUnorderedPairs] at h
  | cons e rest ih =>
    rw [specUnorderedPairs, List.mem_append] at h
    rcases h with h | h
    · rcases List.mem_map.mp h with ⟨x, hx, rfl⟩
      exact ⟨List.mem_cons_self _ _, List.mem_cons_of_mem _ hx⟩
    · rcases ih h with ⟨h1, h2⟩
      exact ⟨List.mem_cons_of_mem _ h1, List.mem_cons_of_mem _ h2⟩

theorem specUnorderedPairs_keys_nodup {l : List Nat} (h : l.Nodup) :
    ((specUnorderedPairs l).map fun p => pairKey p.1 p.2).Nodup := by
  induction l with
  | nil => simp [specUnorderedPairs]
  | cons e rest ih =>
    obtain ⟨he, hrest⟩ := List.nodup_cons.mp h
    rw [specUnorderedPairs, List.map_append, List.nodup_append]
    refine ⟨?_, ih hrest, ?_⟩
    · rw [List.map_map]
      refine hrest.map_on ?_
      intro x hx y hy hxy
      simp only [Function.comp_apply] at hxy
      rcases pairKey_eq_iff.mp hxy with ⟨_, h2⟩ | ⟨_, h2⟩
      · exact h2
      · subst h2
        exact absurd hx he
    · intro k hk1 hk2
      rw [List.map_map] at hk1
      rcases List.mem_map.mp hk1 with ⟨x, hx, rfl⟩
      rcases List.mem_map.mp hk2 with ⟨q, hq, hkq⟩
      obtain ⟨hq1, hq2⟩ := mem_specUnorderedPairs hq
      simp only [Function.comp_apply] at hkq
      rcases pairKey_eq_iff.mp hkq.symm with ⟨h1, _⟩ | ⟨h1, _⟩
      · rw [h1] at he
        exact he hq1
      · rw [h1] at he
        exact he hq2

theorem specUnorderedPairs_keys_cover {l : List Nat} :
    ∀ a b, a ∈ l → b ∈ l → a ≠ b →
      pairKey a b ∈ (specUnorderedPairs l).map fun p => pairKey p.1 p.2 := by
  induction l with
  | nil => simp
  | cons e rest ih =>
    intro a b ha hb hne
    rw [specUnorderedPairs, List.map_append, List.mem_append]
    rcases List.mem_cons.mp ha with rfl | ha'
    · rcases List.mem_cons.mp hb with rfl | hb'
      · exact absurd rfl hne
      · left
        rw [List.map_map]
        exact List.mem_map.mpr ⟨b, hb', rfl⟩
    · rcases List.mem_cons.mp hb with rfl | hb'
      · left
        rw [List.map_map]
        exact List.mem_map.mpr ⟨a, ha', pairKey_comm b a⟩
      · right
        exact ih a b ha' hb' hne

/-- C2: on a duplicate-free employee list the candidate-edge builders
traverse exactly the unordered combinations of distinct employees — their
output is the combination list filtered by "normalized key not already
existing" (and, on the criteria path, eligibility); with an empty criteria
list the criteria path coincides with the random path, i.e. all
non-existing pairs; and the combination list visits each unordered pair
exactly once (its normalized keys are duplicate-free and cover every
unordered pair of distinct employees). -/
theorem build_edges_spec (attrs : AttrMap) (criteria : List Criterion)
    (existing : List (Nat × Nat)) (emps : List Nat) (hnd : emps.Nodup) :
    buildEdgesWithCriteria attrs criteria existing emps =
      (specUnorderedPairs emps).filter
        (fun p => !(decide (pairKey p.1 p.2 ∈ existing)) &&
          pairMatchesCriteria attrs p.1 p.2 criteria) ∧
    buildEdgesRandom existing emps =
      (specUnorderedPairs emps).filter
        (fun p => !(decide (pairKey p.1 p.2 ∈ existing))) ∧
    buildEdgesWithCriteria attrs [] existing emps = buildEdgesRandom existing emps ∧
    ((specUnorderedPairs emps).map fun p => pairKey p.1 p.2).Nodup ∧
    (∀ a b, a ∈ emps → b ∈ emps → a ≠ b →
      pairKey a b ∈ (specUnorderedPairs emps).map fun p => pairKey p.1 p.2) :=
  ⟨buildEdgesWithCriteria_eq_filter attrs criteria existing emps,
   buildEdgesRandom_eq_filter existing emps,
   buildEdges_empty_criteria attrs existing emps,
   specUnorderedPairs_keys_nodup hnd,
   fun a b => specUnorderedPairs_keys_cover a b⟩

theorem build_edges_spec_witness :
    ([1, 2, 3] : List Nat).Nodup ∧
    (buildEdgesWithCriteria attrsA [{ attribute_key := "department", rule := "same" }]
        [pairKey 2 3] [1, 2, 3] =
      (specUnorderedPairs [1, 2, 3]).filter
        (fun p => !(decide (pairKey p.1 p.2 ∈ [pairKey 2 3])) &&
          pairMatchesCriteria attrsA p.1 p.2
            [{ attribute_key := "department", rule := "same" }]) ∧
    buildEdgesRandom [pairKey 2 3] [1, 2, 3] =
      (specUnorderedPairs [1, 2, 3]).filter
        (fun p => !(decide (pairKey p.1 p.2 ∈ [pairKey 2 3]))) ∧
    buildEdgesWithCriteria attrsA [] [pairKey 2 3] [1, 2, 3] =
      buildEdgesRandom [pairKey 2 3] [1, 2, 3] ∧
    ((specUnorderedPairs [1, 2, 3]).map fun p => pairKey p.1 p.2).Nodup ∧
    (∀ a b, a ∈ [1, 2, 3] → b ∈ [1, 2, 3] → a ≠ b →
      pairKey a b ∈ (specUnorderedPairs [1, 2, 3]).map fun p => pairKey p.1 p.2)) :=
  ⟨by decide, build_edges_spec attrsA [{ attribute_key := "department", rule := "same" }]
    [pairKey 2 3] [1, 2, 3] (by decide)⟩

theorem pairIds_cons (p : Nat × Nat) (L : List (Nat × Nat)) :
    pairIds (p :: L) = p.1 :: p.2 :: pairIds L := rfl

theorem pairIds_length (L : List (Nat × Nat)) :
    (pairIds L).length = 2 * L.length := by
  induction L with
  | nil => rfl
  | cons p L ih =>
    rw [pairIds_cons]
    simp only [List.length_cons, ih]
    omega

theorem mem_pairIds {x : Nat} {L : List (Nat × Nat)} :
    x ∈ pairIds L ↔ ∃ p ∈ L, x = p.1 ∨ x = p.2 := by
  simp only [pairIds, List.mem_flatMap, List.mem_cons, List.mem_singleton,
    List.not_mem_nil, or_false]

theorem no_self_of_pairIds_nodup {L : List (Nat × Nat)}
    (h : (pairIds L).Nodup) : ∀ p ∈ L, p.1 ≠ p.2 := by
  induction L with
  | nil => simp
  | cons q L ih =>
    rw [pairIds_cons, List.nodup_cons] at h
    intro p hp
    rcases List.mem_cons.mp hp with rfl | hp'
    · intro hq
      exact h.1 (hq ▸ List.mem_cons_self _ _)
    · exact ih (List.nodup_cons.mp h.2).2 p hp'

theorem nodup_subset_length_le {l1 l2 : List Nat} (h1 : l1.Nodup)
    (h2 : l1 ⊆ l2) : l1.length ≤ l2.length :=
  (List.subperm_of_subset h1 h2).length_le

/-- Any pair list with duplicate-free ids drawn from the employee list has
at most half as many pairs as there are employees. -/
theorem matching_ids_bound {emps : List Nat} {L : List (Nat × Nat)}
    (hnd : (pairIds L).Nodup) (hsub : ∀ x ∈ pairIds L, x ∈ emps) :
    L.length ≤ emps.length / 2 := by
  have h1 : (pairIds L).length ≤ emps.length := nodup_subset_length_le hnd hsub
  rw [pairIds_length] at h1
  omega

theorem greedyMatchingAux_mem_ids (edges : List (Nat × Nat)) :
    ∀ used x, x ∈ pairIds (greedyMatchingAux used edges) →
      ∃ p ∈ edges, x = p.1 ∨ x = p.2 := by
  induction edges with
  | nil => intro used x hx; simp [greedyMatchingAux, pairIds] at hx
  | cons e rest ih =>
    intro used x hx
    obtain ⟨u, v⟩ := e
    rw [greedyMatchingAux] at hx
    by_cases hm : u ∈ used ∨ v ∈ used
    · rw [if_pos hm] at hx
      rcases ih used x hx with ⟨p, hp, h⟩
      exact ⟨p, List.mem_cons_of_mem _ hp, h⟩
    · rw [if_neg hm, pairIds_cons] at hx
      rcases List.mem_cons.mp hx with hxu | hx'
      · exact ⟨(u, v), List.mem_cons_self _ _, Or.inl hxu⟩
      · rcases List.mem_cons.mp hx' with hxv | hx''
        · exact ⟨(u, v), List.mem_cons_self _ _, Or.inr hxv⟩
        · rcases ih (u :: v :: used) x hx'' with ⟨p, hp, h⟩
          exact ⟨p, List.mem_cons_of_mem _ hp, h⟩

theorem greedyMatchingAux_ids_nodup (edges : List (Nat × Nat)) :
    ∀ used : List Nat, used.Nodup → (∀ p ∈ edges, p.1 ≠ p.2) →
      (pairIds (greedyMatchingAux used edges) ++ used).Nodup := by
  induction edges with
  | nil =>
    intro used hu _
    simpa [greedyMatchingAux, pairIds] using hu
  | cons e rest ih =>
    intro used hu hd
    obtain ⟨u, v⟩ := e
    rw [greedyMatchingAux]
    by_cases hm : u ∈ used ∨ v ∈ used
    · rw [if_pos hm]
      exact ih used hu (fun p hp => hd p (List.mem_cons_of_mem _ hp))
    · rw [if_neg hm]
      push_neg at hm
      have hne : u ≠ v := hd (u, v) (List.mem_cons_self _ _)
      have hu' : (u :: v :: used).Nodup := by
        rw [List.nodup_cons, List.nodup_cons]
        refine ⟨?_, hm.2, hu⟩
        rw [List.mem_cons]
        push_neg
        exact ⟨hne, hm.1⟩
      have h2 := ih (u :: v :: used) hu'
        (fun p hp => hd p (List.mem_cons_of_mem _ hp))
      have hperm :
          List.Perm (pairIds (greedyMatchingAux (u :: v :: used) rest) ++ u :: v :: used)
            (u :: v :: (pairIds (greedyMatchingAux (u :: v :: used) rest) ++ used)) :=
        List.perm_middle.trans (List.Perm.cons u List.perm_middle)
      have h3 := hperm.nodup h2
      rw [pairIds_cons]
      simpa using h3

/-- Every id of a networkx matching over the built edges is an employee id,
provided every edge joins employees. -/
theorem nx_matching_ids_subset {emps : List Nat} {edges M : List (Nat × Nat)}
    (hedges : ∀ p ∈ edges, p.1 ∈ emps ∧ p.2 ∈ emps ∧ p.1 ≠ p.2)
    (hM : IsNxMatching edges M) : ∀ x ∈ pairIds M, x ∈ emps := by
  intro x hx
  rcases mem_pairIds.mp hx with ⟨p, hp, hx'⟩
  rcases hM.1 p hp with h | h
  · rcases hedges p h with ⟨h1, h2, _⟩
    rcases hx' with hx1 | hx2
    · exact hx1 ▸ h1
    · exact hx2 ▸ h2
  · rcases hedges (p.2, p.1) h with ⟨h2, h1, _⟩
    rcases hx' with hx1 | hx2
    · exact hx1 ▸ h1
    · exact hx2 ▸ h2

/-- A networkx matching over edges joining employees has at most
`floor(n / 2)` pairs. -/
theorem nx_matching_length_bound {emps : List Nat} {edges M : List (Nat × Nat)}
    (hedges : ∀ p ∈ edges, p.1 ∈ emps ∧ p.2 ∈ emps ∧ p.1 ≠ p.2)
    (hM : IsNxMatching edges M) : M.length ≤ emps.length / 2 :=
  matching_ids_bound hM.2 (nx_matching_ids_subset hedges hM)

/-- C3 counterexample: on the employee list `[1]` and the edge list
`[(1, 1)]` over those employees, the greedy fallback outputs the self-pair
`(1, 1)` — an employee paired with itself, with the id appearing twice, and
an output larger than `floor(1 / 2) = 0`. -/
theorem solver_self_loop_counterexample :
    maximumMatchingFromEdges none [1] [(1, 1)] = [(1, 1)] ∧
    (∃ p ∈ maximumMatchingFromEdges none [1] [(1, 1)], p.1 = p.2) ∧
    ¬(pairIds (maximumMatchingFromEdges none [1] [(1, 1)])).Nodup ∧
    ¬((maximumMatchingFromEdges none [1] [(1, 1)]).length ≤
      ([1] : List Nat).length / 2) := by
  decide

/-- C3 (amended): when every candidate edge joins two distinct employees of
the list, the solver output is a set of disjoint pairs — under the greedy
fallback and for any matching the exact solver returns: no employee id
occurs twice across the output, no pair is a self-pair, and the output has
at most `floor(n / 2)` pairs. -/
theorem solver_disjoint_bound (emps : List Nat) (edges M : List (Nat × Nat))
    (hedges : ∀ p ∈ edges, p.1 ∈ emps ∧ p.2 ∈ emps ∧ p.1 ≠ p.2) :
    ((pairIds (maximumMatchingFromEdges none emps edges)).Nodup ∧
      (∀ p ∈ maximumMatchingFromEdges none emps edges, p.1 ≠ p.2) ∧
      (maximumMatchingFromEdges none emps edges).length ≤ emps.length / 2) ∧
    (IsNxMatching edges M →
      (pairIds (maximumMatchingFromEdges (some M) emps edges)).Nodup ∧
      (∀ p ∈ maximumMatchingFromEdges (some M) emps edges, p.1 ≠ p.2) ∧
      (maximumMatchingFromEdges (some M) emps edges).length ≤ emps.length / 2) := by
  have hself : ∀ p ∈ edges, p.1 ≠ p.2 := fun p hp => (hedges p hp).2.2
  constructor
  · have hnd : (pairIds (greedyMatching edges)).Nodup := by
      have h := greedyMatchingAux_ids_nodup edges [] List.nodup_nil hself
      simpa [greedyMatching] using h
    have hsub : ∀ x ∈ pairIds (greedyMatching edges), x ∈ emps := by
      intro x hx
      rcases greedyMatchingAux_mem_ids edges [] x hx with ⟨p, hp, h⟩
      rcases hedges p hp with ⟨h1, h2, _⟩
      rcases h with h | h
      · exact h ▸ h1
      · exact h ▸ h2
    exact ⟨hnd, no_self_of_pairIds_nodup hnd, matching_ids_bound hnd hsub⟩
  · intro hM
    exact ⟨hM.2, no_self_of_pairIds_nodup hM.2, nx_matching_length_bound hedges hM⟩

theorem solver_disjoint_bound_witness :
    (∀ p ∈ [((1 : Nat), (2 : Nat)), (1, 3)], p.1 ∈ [1, 2, 3] ∧ p.2 ∈ [1, 2, 3] ∧ p.1 ≠ p.2) ∧
    (((pairIds (maximumMatchingFromEdges none [1, 2, 3] [(1, 2), (1, 3)])).Nodup ∧
      (∀ p ∈ maximumMatchingFromEdges none [1, 2, 3] [(1, 2), (1, 3)], p.1 ≠ p.2) ∧
      (maximumMatchingFromEdges none [1, 2, 3] [(1, 2), (1, 3)]).length ≤
        ([1, 2, 3] : List Nat).length / 2) ∧
    (IsNxMatching [(1, 2), (1, 3)] [(3, 1)] →
      (pairIds (maximumMatchingFromEdges (some [(3, 1)]) [1, 2, 3] [(1, 2), (1, 3)])).Nodup ∧
      (∀ p ∈ maximumMatchingFromEdges (some [(3, 1)]) [1, 2, 3] [(1, 2), (1, 3)], p.1 ≠ p.2) ∧
      (maximumMatchingFromEdges (some [(3, 1)]) [1, 2, 3] [(1, 2), (1, 3)]).length ≤
        ([1, 2, 3] : List Nat).length / 2)) :=
  ⟨by decide, solver_disjoint_bound [1, 2, 3] [(1, 2), (1, 3)] [(3, 1)] (by decide)⟩

/-- C4: with four employees, no criteria and no existing pairs the candidate
graph is complete; any maximum-cardinality matching the exact solver returns
has exactly 2 pairs covering all four employees, and the greedy fallback on
the built edge order also returns exactly 2 pairs covering all four. -/
theorem complete_four_two_pairs (M : List (Nat × Nat))
    (hM : IsMaxNxMatching (buildEdgesRandom [] [1, 2, 3, 4]) M) :
    (M.length = 2 ∧ (pairIds M).toFinset = {1, 2, 3, 4}) ∧
    ((maximumMatchingFromEdges none [1, 2, 3, 4]
        (buildEdgesRandom [] [1, 2, 3, 4])).length = 2 ∧
      (pairIds (maximumMatchingFromEdges none [1, 2, 3, 4]
        (buildEdgesRandom [] [1, 2, 3, 4]))).toFinset = {1, 2, 3, 4}) := by
  constructor
  · have hedges : ∀ p ∈ buildEdgesRandom [] [1, 2, 3, 4],
        p.1 ∈ [1, 2, 3, 4] ∧ p.2 ∈ [1, 2, 3, 4] ∧ p.1 ≠ p.2 := by decide
    have hle : M.length ≤ 2 := by
      have h := nx_matching_length_bound hedges hM.1
      simpa using h
    have hge : 2 ≤ M.length := by
      have h2 : IsNxMatching (buildEdgesRandom [] [1, 2, 3, 4]) [(1, 2), (3, 4)] := by
        decide
      simpa using hM.2 [(1, 2), (3, 4)] h2
    have hlen : M.length = 2 := le_antisymm hle hge
    refine ⟨hlen, ?_⟩
    have hndp : (pairIds M).Nodup := hM.1.2
    have hcard : (pairIds M).toFinset.card = 4 := by
      rw [List.toFinset_card_of_nodup hndp, pairIds_length, hlen]
    have hsubF : (pairIds M).toFinset ⊆ ({1, 2, 3, 4} : Finset Nat) := by
      intro x hx
      rw [List.mem_toFinset] at hx
      have h := nx_matching_ids_subset hedges hM.1 x hx
      simpa using h
    have hc4 : ({1, 2, 3, 4} : Finset Nat).card ≤ (pairIds M).toFinset.card := by
      rw [hcard]
      decide
    exact Finset.eq_of_subset_of_card_le hsubF hc4
  · constructor
    · decide
    · decide

theorem complete_four_two_pairs_witness :
    IsMaxNxMatching (buildEdgesRandom [] [1, 2, 3, 4]) [(1, 2), (3, 4)] ∧
    ((([(1, 2), (3, 4)] : List (Nat × Nat)).length = 2 ∧
      (pairIds [(1, 2), (3, 4)]).toFinset = {1, 2, 3, 4}) ∧
    ((maximumMatchingFromEdges none [1, 2, 3, 4]
        (buildEdgesRandom [] [1, 2, 3, 4])).length = 2 ∧
      (pairIds (maximumMatchingFromEdges none [1, 2, 3, 4]
        (buildEdgesRandom [] [1, 2, 3, 4]))).toFinset = {1, 2, 3, 4})) := by
  have hedges : ∀ p ∈ buildEdgesRandom [] [1, 2, 3, 4],
      p.1 ∈ [1, 2, 3, 4] ∧ p.2 ∈ [1, 2, 3, 4] ∧ p.1 ≠ p.2 := by decide
  have hmax : IsMaxNxMatching (buildEdgesRandom [] [1, 2, 3, 4]) [(1, 2), (3, 4)] := by
    refine ⟨by decide, ?_⟩
    intro M' hM'
    have h := nx_matching_length_bound hedges hM'
    simpa using h
  exact ⟨hmax, complete_four_two_pairs [(1, 2), (3, 4)] hmax⟩

/-- C8 counterexample: six employees, no criteria, no existing pairs — the
unconstrained solve yields 3 pairs.  With `limit = 1` the response carries
the plain success message "1 final pairs created successfully" (the same
wording as an untruncated run, no truncation indication, and not the
"Only ... less than requested limit" message), and `total_possible` is 15,
the combinatorial count, not the untruncated solve size 3. -/
theorem limit_truncation_counterexample :
    IsMaxNxMatching (buildEdgesRandom [] [1, 2, 3, 4, 5, 6]) [(1, 2), (3, 4), (5, 6)] ∧
    (generatePairs (some [(1, 2), (3, 4), (5, 6)]) [1, 2, 3, 4, 5, 6]
      (fun _ _ => none) [] [] none).pairs.length = 3 ∧
    (generatePairs (some [(1, 2), (3, 4), (5, 6)]) [1, 2, 3, 4, 5, 6]
      (fun _ _ => none) [] [] (some 1)).pairs.length = 1 ∧
    (generatePairs (some [(1, 2), (3, 4), (5, 6)]) [1, 2, 3, 4, 5, 6]
      (fun _ _ => none) [] [] (some 1)).message =
      "1 final pairs created successfully" ∧
    (generatePairs (some [(1, 2), (3, 4), (5, 6)]) [1, 2, 3, 4, 5, 6]
      (fun _ _ => none) [] [] (some 1)).total_possible = 15 ∧
    (15 : Nat) ≠ 3 := by
  have hedges : ∀ p ∈ buildEdgesRandom [] [1, 2, 3, 4, 5, 6],
      p.1 ∈ [1, 2, 3, 4, 5, 6] ∧ p.2 ∈ [1, 2, 3, 4, 5, 6] ∧ p.1 ≠ p.2 := by decide
  refine ⟨⟨by decide, ?_⟩, by decide, by decide, by decide, by decide, by decide⟩
  intro M' hM'
  have h := nx_matching_length_bound hedges hM'
  simpa using h

/-- C8 (amended): for the six-employee campaign with no criteria and no
existing pairs, whose unconstrained solve yields 3 pairs, `generate_pairs`
with `limit = 1` returns exactly 1 pair and `total_generated = 1`; but the
message is the generic success message "1 final pairs created successfully"
(it does not indicate truncation), and `total_possible` equals the
criteria-independent count `C(6, 2) - existing = 15`, not the untruncated
solve size 3. -/
theorem limit_truncation_amended (M : List (Nat × Nat))
    (hM : IsMaxNxMatching (buildEdgesRandom [] [1, 2, 3, 4, 5, 6]) M) :
    M.length = 3 ∧
    (generatePairs (some M) [1, 2, 3, 4, 5, 6]
      (fun _ _ => none) [] [] (some 1)).pairs.length = 1 ∧
    (generatePairs (some M) [1, 2, 3, 4, 5, 6]
      (fun _ _ => none) [] [] (some 1)).total_generated = 1 ∧
    (generatePairs (some M) [1, 2, 3, 4, 5, 6]
      (fun _ _ => none) [] [] (some 1)).message =
      "1 final pairs created successfully" ∧
    (generatePairs (some M) [1, 2, 3, 4, 5, 6]
      (fun _ _ => none) [] [] (some 1)).total_possible = 15 := by
  have hedges : ∀ p ∈ buildEdgesRandom [] [1, 2, 3, 4, 5, 6],
      p.1 ∈ [1, 2, 3, 4, 5, 6] ∧ p.2 ∈ [1, 2, 3, 4, 5, 6] ∧ p.1 ≠ p.2 := by decide
  have hle : M.length ≤ 3 := by
    have h := nx_matching_length_bound hedges hM.1
    simpa using h
  have hge : 3 ≤ M.length := by
    have h3 : IsNxMatching (buildEdgesRandom [] [1, 2, 3, 4, 5, 6])
        [(1, 2), (3, 4), (5, 6)] := by decide
    simpa using hM.2 [(1, 2), (3, 4), (5, 6)] h3
  have hlen : M.length = 3 := le_antisymm hle hge
  have hcond : (limitTruthy (some 1) && decide (M.length > (some 1).getD 0)) = true := by
    rw [hlen]
    decide
  refine ⟨hlen, ?_, ?_, ?_, ?_⟩ <;>
    simp [generatePairs, maximumMatchingFromEdges, hcond, hlen,
      generateStatusMessage, limitTruthy, getExistingPairs,
      calculateTotalPossiblePairs, List.length_take] <;>
    rfl

theorem limit_truncation_amended_witness :
    IsMaxNxMatching (buildEdgesRandom [] [1, 2, 3, 4, 5, 6]) [(1, 2), (3, 4), (5, 6)] ∧
    (([(1, 2), (3, 4), (5, 6)] : List (Nat × Nat)).length = 3 ∧
    (generatePairs (some [(1, 2), (3, 4), (5, 6)]) [1, 2, 3, 4, 5, 6]
      (fun _ _ => none) [] [] (some 1)).pairs.length = 1 ∧
    (generatePairs (some [(1, 2), (3, 4), (5, 6)]) [1, 2, 3, 4, 5, 6]
      (fun _ _ => none) [] [] (some 1)).total_generated = 1 ∧
    (generatePairs (some [(1, 2), (3, 4), (5, 6)]) [1, 2, 3, 4, 5, 6]
      (fun _ _ => none) [] [] (some 1)).message =
      "1 final pairs created successfully" ∧
    (generatePairs (some [(1, 2), (3, 4), (5, 6)]) [1, 2, 3, 4, 5, 6]
      (fun _ _ => none) [] [] (some 1)).total_possible = 15) := by
  have hedges : ∀ p ∈ buildEdgesRandom [] [1, 2, 3, 4, 5, 6],
      p.1 ∈ [1, 2, 3, 4, 5, 6] ∧ p.2 ∈ [1, 2, 3, 4, 5, 6] ∧ p.1 ≠ p.2 := by decide
  have hmax : IsMaxNxMatching (buildEdgesRandom [] [1, 2, 3, 4, 5, 6])
      [(1, 2), (3, 4), (5, 6)] := by
    refine ⟨by decide, ?_⟩
    intro M' hM'
    have h := nx_matching_length_bound hedges hM'
    simpa using h
  exact ⟨hmax, limit_truncation_amended [(1, 2), (3, 4), (5, 6)] hmax⟩

/-- C9 counterexample: the same employee set enumerated in two different
orders — as the data layer may return it, since no ordering is imposed —
produces different pair sets under the greedy fallback, with identical
attribute data, criteria and existing pairs; the results differ even after
direction normalization. -/
theorem order_dependence_counterexample :
    ([1, 2, 3] : List Nat).toFinset = ([1, 3, 2] : List Nat).toFinset ∧
    (generatePairs none [1, 2, 3] (fun _ _ => none) [] [] none).pairs = [(1, 2)] ∧
    (generatePairs none [1, 3, 2] (fun _ _ => none) [] [] none).pairs = [(1, 3)] ∧
    ((generatePairs none [1, 2, 3] (fun _ _ => none) [] [] none).pairs.map
        (fun p => pairKey p.1 p.2)).toFinset ≠
      ((generatePairs none [1, 3, 2] (fun _ _ => none) [] [] none).pairs.map
        (fun p => pairKey p.1 p.2)).toFinset := by
  refine ⟨by decide, by decide, by decide, by decide⟩

/-- C9 (amended): `generate_pairs` is a pure function of its inputs — it
performs no persistence and uses no randomness — so it is deterministic
whenever the employee enumeration order is fixed; in particular, if the
employees are enumerated sorted by id, two calls on the same employee set
with the same attribute data, criteria, existing pairs, limit, and solver
result return the same response.  (The code itself imposes no sort, and
different enumeration orders of the same set can change the result.) -/
theorem generate_pairs_sorted_deterministic (nxR : Option (List (Nat × Nat)))
    (emps1 emps2 : List Nat) (attrs : AttrMap) (criteria : List Criterion)
    (rows : List (Nat × Nat)) (limit : Option Nat)
    (h1 : List.Sorted (· < ·) emps1) (h2 : List.Sorted (· < ·) emps2)
    (hset : emps1.toFinset = emps2.toFinset) :
    generatePairs nxR emps1 attrs criteria rows limit =
      generatePairs nxR emps2 attrs criteria rows limit := by
  have hnd1 : emps1.Nodup := h1.nodup
  have hnd2 : emps2.Nodup := h2.nodup
  have hperm : List.Perm emps1 emps2 :=
    List.perm_of_nodup_nodup_toFinset_eq hnd1 hnd2 hset
  haveI : IsAntisymm Nat (· < ·) :=
    ⟨fun a b hab hba => absurd hab (Nat.lt_asymm hba)⟩
  have heq : emps1 = emps2 := List.eq_of_perm_of_sorted hperm h1 h2
  rw [heq]

theorem generate_pairs_sorted_deterministic_witness :
    List.Sorted (· < ·) ([2, 5] : List Nat) ∧
    ([2, 5] : List Nat).toFinset = ([2, 5] : List Nat).toFinset ∧
    generatePairs none [2, 5] attrsA [] [] none =
      generatePairs none [2, 5] attrsA [] [] none :=
  ⟨by decide, rfl,
    generate_pairs_sorted_deterministic none [2, 5] [2, 5] attrsA [] [] none
      (by decide) (by decide) rfl⟩

/-- C5 (code bug): within one confirmation batch both directions of the
same logical pair are inserted.  Both `(1, 2)` and `(2, 1)` pass the
`pair_exists` check — it runs against the store as it stood before the
batch's saves — and the two Meta unique constraints, being over the same
three columns, do not conflict a reversed row with the stored one, so the
campaign ends up with rows `(0, 1, 2)` and `(0, 2, 1)`.  (A reversed pair
arriving in a *later* request is caught: `pair_exists` then sees the stored
row, as the last conjunct shows.) -/
theorem both_directions_saved_in_batch :
    (confirmPairs 0 [1, 2] [] [] [(1, 2), (2, 1)]).rows =
      [{ campaign := 0, e1 := 1, e2 := 2 }, { campaign := 0, e1 := 2, e2 := 1 }] ∧
    (confirmPairs 0 [1, 2] [] [] [(1, 2), (2, 1)]).response.total_saved = 2 ∧
    (confirmPairs 0 [1, 2] [] [] [(1, 2), (2, 1)]).response.errors = [] ∧
    uniqueForwardConflict { campaign := 0, e1 := 1, e2 := 2 }
      { campaign := 0, e1 := 2, e2 := 1 } = false ∧
    uniqueReverseConflict { campaign := 0, e1 := 1, e2 := 2 }
      { campaign := 0, e1 := 2, e2 := 1 } = false ∧
    pairExists [{ campaign := 0, e1 := 1, e2 := 2 }] 0 2 1 = true := by
  decide

/-- C6 (code bug): confirming a pair for a campaign that has zero criteria
saves the pair, but `criteria.update(is_locked=True)` touches no rows, so a
later criteria-save request for the campaign succeeds instead of failing
with the criteria-locked error.  (When at least one criterion row exists at
confirmation time, the same later save is rejected as locked — last
conjunct.) -/
theorem criteria_save_after_confirm_zero_criteria :
    (confirmPairs 0 [1, 2] [] [] [(1, 2)]).response.total_saved = 1 ∧
    (confirmPairs 0 [1, 2] [] [] [(1, 2)]).rows =
      [{ campaign := 0, e1 := 1, e2 := 2 }] ∧
    (confirmPairs 0 [1, 2] [] [] [(1, 2)]).criteria = [] ∧
    saveCriteria (confirmPairs 0 [1, 2] [] [] [(1, 2)]).criteria (fun _ => true)
      [("department", "same")] =
      .saved [{ attribute_key := "department", rule := "same", is_locked := false }] ∧
    saveCriteria
      (confirmPairs 0 [1, 2] []
        [{ attribute_key := "seniority", rule := "not_same", is_locked := false }]
        [(1, 2)]).criteria
      (fun _ => true) [("department", "same")] = .locked := by
  decide

/-- C7 counterexample: a confirmation request holding one valid pair and one
self-pair is rejected whole by the request serializer — HTTP 400, nothing
saved, the pair store untouched — whereas the claim expects the valid pair
`(1, 2)` to still be created. -/
theorem self_pair_whole_request_counterexample :
    (confirmPairs 0 [1, 2, 3] [] [] [(1, 2), (3, 3)]).response.status = 400 ∧
    (confirmPairs 0 [1, 2, 3] [] [] [(1, 2), (3, 3)]).response.success = false ∧
    (confirmPairs 0 [1, 2, 3] [] [] [(1, 2), (3, 3)]).response.total_saved = 0 ∧
    (confirmPairs 0 [1, 2, 3] [] [] [(1, 2), (3, 3)]).rows = [] := by
  decide

/-- C7 (amended): a candidate pair with `employee_1_id == employee_2_id`
causes the whole confirmation request to fail serializer validation: the
response is a 400 failure, no pair of the request — the other, valid ones
included — is created, the pair store and criteria are untouched, and in
particular the self-pair is never saved or silently deduplicated. -/
theorem self_pair_rejects_whole_request (c : Nat) (employees : List Nat)
    (rows : List PairRow) (crit : List CriterionRow) (reqs : List (Nat × Nat))
    (p : Nat × Nat) (hp : p ∈ reqs) (hself : p.1 = p.2) :
    (confirmPairs c employees rows crit reqs).response.status = 400 ∧
    (confirmPairs c employees rows crit reqs).response.success = false ∧
    (confirmPairs c employees rows crit reqs).response.total_saved = 0 ∧
    (confirmPairs c employees rows crit reqs).rows = rows ∧
    (confirmPairs c employees rows crit reqs).criteria = crit := by
  have hall : reqs.all (fun q => !(q.1 == q.2)) = false := by
    rcases h : reqs.all (fun q => !(q.1 == q.2)) with _ | _
    · rfl
    · have := List.all_eq_true.mp h p hp
      rw [hself] at this
      simp at this
  have hv : validatePairsRequest reqs = false := by
    rw [validatePairsRequest, hall, Bool.and_false]
  simp [confirmPairs, hv]

theorem self_pair_rejects_whole_request_witness :
    ((2, 2) : Nat × Nat) ∈ [((1, 2) : Nat × Nat), (2, 2)] ∧
    ((2, 2) : Nat × Nat).1 = ((2, 2) : Nat × Nat).2 ∧
    ((confirmPairs 0 [1, 2] [] [] [(1, 2), (2, 2)]).response.status = 400 ∧
    (confirmPairs 0 [1, 2] [] [] [(1, 2), (2, 2)]).response.success = false ∧
    (confirmPairs 0 [1, 2] [] [] [(1, 2), (2, 2)]).response.total_saved = 0 ∧
    (confirmPairs 0 [1, 2] [] [] [(1, 2), (2, 2)]).rows = [] ∧
    (confirmPairs 0 [1, 2] [] [] [(1, 2), (2, 2)]).criteria = []) :=
  ⟨by decide, rfl,
    self_pair_rejects_whole_request 0 [1, 2] [] [] [(1, 2), (2, 2)] (2, 2)
      (by decide) rfl⟩

/-- C10: every confirmation request that passes serializer validation is
answered with HTTP 201, top-level `success = true`, and the message built
from the saved count — "N pairs confirmed and saved successfully" with
`N = total_saved` — regardless of how many per-item rejections landed
in the errors list; in particular this holds when every requested pair is
rejected and `total_saved = 0`. -/
theorem confirm_response_always_success (c : Nat) (employees : List Nat)
    (rows : List PairRow) (crit : List CriterionRow) (reqs : List (Nat × Nat))
    (hv : validatePairsRequest reqs = true) :
    (confirmPairs c employees rows crit reqs).response.success = true ∧
    (confirmPairs c employees rows crit reqs).response.status = 201 ∧
    (confirmPairs c employees rows crit reqs).response.message =
      toString (confirmPairs c employees rows crit reqs).response.total_saved ++
        " pairs confirmed and saved successfully" := by
  simp [confirmPairs, hv]

theorem confirm_response_always_success_witness :
    validatePairsRequest [(1, 2)] = true ∧
    (confirmPairs 0 [1, 2] [{ campaign := 0, e1 := 1, e2 := 2 }] [] [(1, 2)]).response.total_saved = 0 ∧
    (confirmPairs 0 [1, 2] [{ campaign := 0, e1 := 1, e2 := 2 }] [] [(1, 2)]).response.errors =
      [.pairAlreadyExists 1 2] ∧
    ((confirmPairs 0 [1, 2] [{ campaign := 0, e1 := 1, e2 := 2 }] [] [(1, 2)]).response.success = true ∧
    (confirmPairs 0 [1, 2] [{ campaign := 0, e1 := 1, e2 := 2 }] [] [(1, 2)]).response.status = 201 ∧
    (confirmPairs 0 [1, 2] [{ campaign := 0, e1 := 1, e2 := 2 }] [] [(1, 2)]).response.message =
      toString (confirmPairs 0 [1, 2] [{ campaign := 0, e1 := 1, e2 := 2 }] [] [(1, 2)]).response.total_saved ++
        " pairs confirmed and saved successfully") :=
  ⟨by decide, by decide, by decide,
    confirm_response_always_success 0 [1, 2] [{ campaign := 0, e1 := 1, e2 := 2 }] [] [(1, 2)]
      (by decide)⟩
